import Mathlib

/-!
Verification development for the MoralAi appointment scheduling core
(backend server: availability store, 30-minute slot generator, slot query
service, appointment lifecycle manager).

The TypeScript source works on SQLite rows and JS strings.  The embedding
models rows as Lean structures, the database as lists of rows, and all
string manipulation structurally over `List Char` so that every definition
is executable by `decide`.  JS specifics that the embedding keeps:

* `String.prototype.slice(0, n)` is `strTake`;
* `t.split(sep)` is `splitOnCh` on the character list;
* `Number(part)` on the HH:MM pieces is `toNatDigits?` (the JS `NaN`
  result on a non-digit piece and the `undefined` result of a missing
  piece both collapse to the `?? 0` default the source applies, so the
  two are merged into `Option.getD 0`; the domain of the data model is
  digit strings);
* SQLite BINARY string comparison and `localeCompare` on ASCII data are
  the lexicographic order `lexLt` / `lexLe` on the character lists;
* `new Date(date + "T12:00:00").getDay()` (0 = Sunday, local calendar,
  proleptic Gregorian) is `dayOfWeekOf`, computed by the Sakamoto
  congruence;
* `new Date(y, m, 0).getDate()` is `daysInMonth`, including the JS
  mapping of two-digit years to 1900 + y.
-/

/-- The decimal digit character for `n < 10` (JS string coercion of a digit). -/
def digitChar (n : Nat) : Char := Char.ofNat (48 + n)

/-- Fuel-driven decimal printing of a natural number, least significant digit
last; fuel at least `n + 1` suffices. -/
def natCharsAux : Nat → Nat → List Char
  | 0, _ => []
  | fuel + 1, n =>
    if n < 10 then [digitChar n]
    else natCharsAux fuel (n / 10) ++ [digitChar (n % 10)]

/-- Decimal digits of `n` (the JS template-literal rendering of a number). -/
def natChars (n : Nat) : List Char := natCharsAux (n + 1) n

/-- Decimal string of `n`. -/
def natStr (n : Nat) : String := String.mk (natChars n)

/-- `String(n).padStart(2, "0")` at the character-list level. -/
def pad2c (n : Nat) : List Char := if n < 10 then '0' :: natChars n else natChars n

/-- `String(n).padStart(2, "0")`. -/
def pad2 (n : Nat) : String := String.mk (pad2c n)

/-- Digit-string parsing with accumulator: `none` on a non-digit character. -/
def toNatDigitsAux : List Char → Nat → Option Nat
  | [], acc => some acc
  | c :: cs, acc =>
    if c.isDigit then toNatDigitsAux cs (acc * 10 + (c.toNat - 48)) else none

/-- `Number(s)` restricted to digit strings: the value of a (possibly empty)
digit string, `none` on any other character (JS yields `NaN` there, which the
callers below fold into their `?? 0` defaults). -/
def toNatDigits? (cs : List Char) : Option Nat := toNatDigitsAux cs 0

/-- `s.split(sep)` on character lists. -/
def splitOnCh (sep : Char) : List Char → List (List Char)
  | [] => [[]]
  | c :: cs =>
    if c = sep then [] :: splitOnCh sep cs
    else
      match splitOnCh sep cs with
      | [] => [[c]]
      | p :: ps => (c :: p) :: ps

/-- `s.slice(0, n)`. -/
def strTake (s : String) (n : Nat) : String := String.mk (s.data.take n)

/-- Strict lexicographic order on character lists, comparing code points:
the order SQLite BINARY collation and `localeCompare` induce on the ASCII
data this system stores. -/
def lexLt : List Char → List Char → Bool
  | [], [] => false
  | [], _ :: _ => true
  | _ :: _, [] => false
  | a :: as, b :: bs =>
    if a.toNat < b.toNat then true
    else if b.toNat < a.toNat then false
    else lexLt as bs

/-- Reflexive lexicographic order on character lists. -/
def lexLe : List Char → List Char → Bool
  | [], _ => true
  | _ :: _, [] => false
  | a :: as, b :: bs =>
    if a.toNat < b.toNat then true
    else if b.toNat < a.toNat then false
    else lexLe as bs

/-- String comparison `s < t` (SQLite BINARY / ASCII `localeCompare`). -/
def strLtB (s t : String) : Bool := lexLt s.data t.data

/-- String comparison `s <= t` (SQLite BINARY / ASCII `localeCompare`). -/
def strLeB (s t : String) : Bool := lexLe s.data t.data

/-- Source constant `SLOT_MINUTES = 30`. -/
def SLOT_MINUTES : Nat := 30

/-- Source `timeToMinutes`: split `"HH:MM"` on `":"`, parse the two pieces,
missing or unparsable pieces defaulting to 0 (`(h ?? 0) * 60 + (m ?? 0)`). -/
def timeToMinutes (t : String) : Nat :=
  let parts := splitOnCh ':' t.data
  let h := (parts[0]?).bind toNatDigits?
  let m := (parts[1]?).bind toNatDigits?
  h.getD 0 * 60 + m.getD 0

/-- Source `minutesToTime`: the template literal
`` `${String(h).padStart(2, "0")}:${String(m).padStart(2, "0")}` ``
with `h = min / 60` and `m = min % 60`. -/
def minutesToTime (min : Nat) : String := pad2 (min / 60) ++ ":" ++ pad2 (min % 60)

/-- Source `slotTimesBetween`: the loop
`for (let m = startMin; m + SLOT_MINUTES <= endMin; m += SLOT_MINUTES)`
enumerated by its iteration count `(endMin - startMin) / SLOT_MINUTES`
(truncating Nat subtraction and division give 0 iterations whenever
`startMin + SLOT_MINUTES > endMin`, exactly as the loop guard does). -/
def slotTimesBetween (startTime endTime : String) : List String :=
  let startMin := timeToMinutes startTime
  let endMin := timeToMinutes endTime
  (List.range ((endMin - startMin) / SLOT_MINUTES)).map
    (fun i => minutesToTime (startMin + SLOT_MINUTES * i))

/-- `new Date(date + "T12:00:00").getDay()` for a `YYYY-MM-DD` string:
Sakamoto day-of-week congruence on the proleptic Gregorian calendar,
0 = Sunday as in JS. -/
def dayOfWeekOf (date : String) : Nat :=
  let parts := splitOnCh '-' date.data
  let y := ((parts[0]?).bind toNatDigits?).getD 0
  let m := ((parts[1]?).bind toNatDigits?).getD 0
  let d := ((parts[2]?).bind toNatDigits?).getD 0
  let t : List Nat := [0, 3, 2, 5, 0, 3, 5, 1, 4, 6, 2, 4]
  let y2 := if m < 3 then y - 1 else y
  (y2 + y2 / 4 - y2 / 100 + y2 / 400 + t.getD (m - 1) 0 + d) % 7

/-- `new Date(y, m, 0).getDate()`: the number of days of month `m` of year
`y`, with the JS `Date(year, ...)` constructor mapping of years 0 to 99
to 1900 + y. -/
def daysInMonth (y m : Nat) : Nat :=
  let yy := if y ≤ 99 then 1900 + y else y
  if m = 2 then
    if yy % 4 = 0 ∧ (yy % 100 ≠ 0 ∨ yy % 400 = 0) then 29 else 28
  else if m = 4 ∨ m = 6 ∨ m = 9 ∨ m = 11 then 30
  else 31

-- ------------------------------------------------------------------
-- Data model (SQLite rows of the source schema)
-- ------------------------------------------------------------------

/-- `users.role` values. -/
inductive Role
  | student
  | admin
  | counselor
deriving DecidableEq

/-- `users.provider_type` values (source `ProviderType`). -/
inductive ProviderType
  | counselor
  | doctor
deriving DecidableEq

/-- Source `AppointmentType`. -/
inductive AppointmentType
  | counseling
  | doctor
  | follow_up
deriving DecidableEq

/-- Source `AppointmentStatus`. -/
inductive AppointmentStatus
  | scheduled
  | completed
  | cancelled
  | no_show
deriving DecidableEq

/-- A `users` row (the columns the scheduling core reads). -/
structure User where
  id : Nat
  username : String
  role : Role
  provider_type : ProviderType
deriving DecidableEq

/-- An `appointments` row (source `AppointmentRow`). -/
structure AppointmentRow where
  id : Nat
  student_id : Nat
  assigned_to : Option Nat
  scheduled_at : String
  type : AppointmentType
  status : AppointmentStatus
  location : Option String
  provider_or_notes : Option String
  admin_notes : Option String
  counselor_report : Option String
  created_by : Nat
  created_at : String
  updated_at : String
deriving DecidableEq

/-- A `counselor_availability` row. -/
structure AvailRow where
  user_id : Nat
  day_of_week : Nat
  start_time : String
  end_time : String
deriving DecidableEq

/-- A `notifications` row (the columns the appointment routes write). -/
structure NotificationRow where
  user_id : Nat
  ntype : String
  title : String
  body : String
  related_type : Option String
  related_id : Option Nat
deriving DecidableEq

/-- The persistent store: the tables the scheduling core touches, plus the
autoincrement counter for `appointments.id`. -/
structure DB where
  users : List User
  appointments : List AppointmentRow
  availability : List AvailRow
  notifications : List NotificationRow
  nextApptId : Nat
deriving DecidableEq

/-- Source `SlotOption` (derived, not persisted). -/
structure SlotOption where
  start : String
  «end» : String
  counselor_id : Nat
  counselor_username : String
deriving DecidableEq

-- ------------------------------------------------------------------
-- Slot Generator and Slot Query Service (source getAvailableSlots,
-- getDatesWithSlots)
-- ------------------------------------------------------------------

/-- The candidate provider rows: the SQL
`SELECT ... FROM users WHERE id = ? AND role = 'counselor'` when a
counselorId is requested, else `... WHERE role = 'counselor'`. -/
def candidateProviders (db : DB) (counselorId : Option Nat) : List User :=
  match counselorId with
  | some cid => db.users.filter (fun u => u.id == cid && u.role == Role.counselor)
  | none => db.users.filter (fun u => u.role == Role.counselor)

/-- The appointment-type filter of `getAvailableSlots`:
doctor keeps only provider_type doctor, counseling keeps only
provider_type not doctor, follow_up or no type keeps everyone. -/
def typeFilter (ty : Option AppointmentType) (c : User) : Bool :=
  match ty with
  | some AppointmentType.doctor => c.provider_type == ProviderType.doctor
  | some AppointmentType.counseling => !(c.provider_type == ProviderType.doctor)
  | some AppointmentType.follow_up => true
  | none => true

/-- The booked slot-start keys for one provider and date: the SQL
`SELECT scheduled_at FROM appointments WHERE assigned_to = ? AND
status = 'scheduled' AND scheduled_at >= date + "T00:00:00" AND
scheduled_at <= date + "T23:59:59"`, each key truncated with
`.slice(0, 16)` (minute granularity). -/
def bookedStarts (db : DB) (cid : Nat) (date : String) : List String :=
  (db.appointments.filter (fun a =>
      a.assigned_to == some cid && a.status == AppointmentStatus.scheduled &&
      strLeB (date ++ "T00:00:00") a.scheduled_at &&
      strLeB a.scheduled_at (date ++ "T23:59:59"))).map
    (fun a => strTake a.scheduled_at 16)

/-- The `SlotOption` the generator pushes for provider `c` and slot start
time `t` on `date`. -/
def mkSlot (date t : String) (c : User) : SlotOption :=
  { start := date ++ "T" ++ t ++ ":00"
    «end» := date ++ "T" ++ minutesToTime (timeToMinutes t + SLOT_MINUTES) ++ ":00"
    counselor_id := c.id
    counselor_username := c.username }

/-- The inner loops of `getAvailableSlots` for one provider: availability
rows for the day of week, slot times per window, dropping starts whose
minute key is in the booked set. -/
def providerSlots (db : DB) (date : String) (c : User) : List SlotOption :=
  let dow := dayOfWeekOf date
  let rows := db.availability.filter (fun w => w.user_id == c.id && w.day_of_week == dow)
  let booked := bookedStarts db c.id date
  rows.flatMap (fun w =>
    (slotTimesBetween w.start_time w.end_time).filterMap (fun t =>
      if booked.contains (strTake (date ++ "T" ++ t ++ ":00") 16) then none
      else some (mkSlot date t c)))

/-- All slots of all filtered providers, in provider iteration order,
before the final sort. -/
def unsortedSlots (db : DB) (date : String) (counselorId : Option Nat)
    (ty : Option AppointmentType) : List SlotOption :=
  ((candidateProviders db counselorId).filter (typeFilter ty)).flatMap
    (providerSlots db date)

/-- Source `getAvailableSlots`: generate per provider, then
`allSlots.sort((a, b) => a.start.localeCompare(b.start))` — a stable
ascending sort by start timestamp. -/
def getAvailableSlots (db : DB) (date : String) (counselorId : Option Nat)
    (ty : Option AppointmentType) : List SlotOption :=
  (unsortedSlots db date counselorId ty).mergeSort
    (fun a b => strLeB a.start b.start)

/-- The `YYYY-MM` month-string parse of `getDatesWithSlots`:
`month.split("-").map(Number)`, unparsable pieces collapsing to the 0
that the `!y || !m` guard rejects. -/
def parseMonth (month : String) : Nat × Nat :=
  let parts := splitOnCh '-' month.data
  (((parts[0]?).bind toNatDigits?).getD 0, ((parts[1]?).bind toNatDigits?).getD 0)

/-- The date string `${y}-${pad2 m}-${pad2 d}` built by `getDatesWithSlots`. -/
def mkDateStr (y m d : Nat) : String :=
  natStr y ++ "-" ++ pad2 m ++ "-" ++ pad2 d

/-- Source `getDatesWithSlots`: reject a malformed or out-of-range month,
else probe every day `1 .. lastDay` of the month and keep the dates whose
`getAvailableSlots` result is non-empty (the loop pushing conditionally is
the filter of the mapped day range). -/
def getDatesWithSlots (db : DB) (month : String) (counselorId : Option Nat)
    (ty : Option AppointmentType) : List String :=
  if (parseMonth month).1 = 0 ∨ (parseMonth month).2 = 0 ∨ 12 < (parseMonth month).2 then []
  else
    ((List.range (daysInMonth (parseMonth month).1 (parseMonth month).2)).map
        (fun i => mkDateStr (parseMonth month).1 (parseMonth month).2 (i + 1))).filter
      (fun dateStr => 0 < (getAvailableSlots db dateStr counselorId ty).length)

-- ------------------------------------------------------------------
-- Appointment store operations (source createAppointment,
-- listAppointments, getAppointmentById, updateAppointment,
-- deleteAppointment)
-- ------------------------------------------------------------------

/-- The optional fields of `createAppointment` (source `opts`). -/
structure CreateOpts where
  type : Option AppointmentType
  location : Option String
  providerOrNotes : Option String
  adminNotes : Option String
  assignedTo : Option Nat
deriving DecidableEq

/-- Source `createAppointment`: INSERT with status `'scheduled'`, type
defaulted to counseling, nullable options stored as given (`?? null`),
then SELECT of the inserted row.  `now` stands for the `datetime('now')`
defaults of `created_at` / `updated_at`. -/
def createAppointment (db : DB) (studentId : Nat) (scheduledAt : String)
    (adminUserId : Nat) (opts : CreateOpts) (now : String) : AppointmentRow × DB :=
  let row : AppointmentRow :=
    { id := db.nextApptId
      student_id := studentId
      assigned_to := opts.assignedTo
      scheduled_at := scheduledAt
      type := opts.type.getD AppointmentType.counseling
      status := AppointmentStatus.scheduled
      location := opts.location
      provider_or_notes := opts.providerOrNotes
      admin_notes := opts.adminNotes
      counselor_report := none
      created_by := adminUserId
      created_at := now
      updated_at := now }
  (row, { db with appointments := db.appointments ++ [row], nextApptId := db.nextApptId + 1 })

/-- Source `listAppointments` filters. -/
structure ListFilters where
  studentId : Option Nat
  assignedTo : Option Nat
  assignedToMeOrUnassigned : Option Nat
  status : Option AppointmentStatus
  fromDate : Option String
  toDate : Option String
  limit : Option Nat
deriving DecidableEq

/-- Source `listAppointments`: the WHERE clauses, `ORDER BY scheduled_at
ASC` and `LIMIT (filters.limit ?? 200)`. -/
def listAppointments (db : DB) (filters : ListFilters) : List AppointmentRow :=
  ((db.appointments.filter (fun a =>
      (match filters.studentId with | some v => a.student_id == v | none => true) &&
      (match filters.assignedTo with | some v => a.assigned_to == some v | none => true) &&
      (match filters.assignedToMeOrUnassigned with
       | some v => a.assigned_to == some v || a.assigned_to == none
       | none => true) &&
      (match filters.status with | some v => a.status == v | none => true) &&
      (match filters.fromDate with | some v => strLeB v a.scheduled_at | none => true) &&
      (match filters.toDate with | some v => strLeB a.scheduled_at v | none => true))).mergeSort
    (fun a b => strLeB a.scheduled_at b.scheduled_at)).take (filters.limit.getD 200)

/-- Source `getAppointmentById` (the username join columns are not part of
the row the mutation logic reads). -/
def getAppointmentById (db : DB) (id : Nat) : Option AppointmentRow :=
  db.appointments.find? (fun a => a.id == id)

/-- The partial update record of `updateAppointment`.  An outer `none` is
an omitted field; for the two fields the TS type lets callers null
explicitly (`assigned_to`, `counselor_report`) the inner Option is the
stored value. -/
structure ApptUpdates where
  status : Option AppointmentStatus
  scheduled_at : Option String
  location : Option String
  provider_or_notes : Option String
  admin_notes : Option String
  assigned_to : Option (Option Nat)
  counselor_report : Option (Option String)
deriving DecidableEq

/-- The empty update record. -/
def ApptUpdates.empty : ApptUpdates :=
  { status := none, scheduled_at := none, location := none,
    provider_or_notes := none, admin_notes := none, assigned_to := none,
    counselor_report := none }

/-- Source `updateAppointment`: look the row up, return `undefined` when
absent, else write every column with the supplied value where present and
the prior value where omitted (`??` for the non-nullable columns,
`!== undefined` for the nullable ones), set `updated_at = datetime('now')`
(`now`), and return the re-read row. -/
def updateAppointment (db : DB) (id : Nat) (u : ApptUpdates) (now : String) :
    Option AppointmentRow × DB :=
  match db.appointments.find? (fun a => a.id == id) with
  | none => (none, db)
  | some existing =>
    let newRow : AppointmentRow :=
      { existing with
        scheduled_at := u.scheduled_at.getD existing.scheduled_at
        status := u.status.getD existing.status
        location := match u.location with | some v => some v | none => existing.location
        provider_or_notes :=
          match u.provider_or_notes with | some v => some v | none => existing.provider_or_notes
        admin_notes := match u.admin_notes with | some v => some v | none => existing.admin_notes
        assigned_to := u.assigned_to.getD existing.assigned_to
        counselor_report := u.counselor_report.getD existing.counselor_report
        updated_at := now }
    (some newRow,
     { db with appointments := db.appointments.map (fun a => if a.id == id then newRow else a) })

/-- Source `deleteAppointment`: `DELETE FROM appointments WHERE id = ?`,
reporting whether a row was removed. -/
def deleteAppointment (db : DB) (id : Nat) : Bool × DB :=
  (db.appointments.any (fun a => a.id == id),
   { db with appointments := db.appointments.filter (fun a => !(a.id == id)) })

/-- Source `createNotification` (INSERT into notifications). -/
def createNotification (db : DB) (userId : Nat) (ntype title body : String)
    (relatedType : Option String) (relatedId : Option Nat) : DB :=
  { db with notifications := db.notifications ++
      [{ user_id := userId, ntype := ntype, title := title, body := body,
         related_type := relatedType, related_id := relatedId }] }

-- ------------------------------------------------------------------
-- HTTP route handlers for /api/appointments (POST, GET, PATCH, DELETE)
-- ------------------------------------------------------------------

/-- The authenticated caller attached by `requireAuth` (JWT claims). -/
structure AuthUser where
  userId : Nat
  username : String
  role : Role
deriving DecidableEq

/-- The route responses the appointment handlers produce.  `forbidden`,
`badRequest` and `notFound` are the 403 / 400 / 404 rejections; `okA`
is the 200 `{ appointment }` body, `created` the 201 body, `okList` the
200 `{ appointments }` body and `noContent` the 204. -/
inductive HResp
  | forbidden
  | badRequest
  | notFound
  | okA (a : Option AppointmentRow)
  | created (a : AppointmentRow)
  | okList (l : List AppointmentRow)
  | noContent
deriving DecidableEq

/-- The runtime membership check
`["scheduled", "completed", "cancelled", "no_show"].includes(status)`,
returning the accepted status. -/
def statusOfString? (s : String) : Option AppointmentStatus :=
  if s = "scheduled" then some AppointmentStatus.scheduled
  else if s = "completed" then some AppointmentStatus.completed
  else if s = "cancelled" then some AppointmentStatus.cancelled
  else if s = "no_show" then some AppointmentStatus.no_show
  else none

/-- The runtime membership check
`["counseling", "doctor", "follow_up"].includes(type)`. -/
def typeOfString? (s : String) : Option AppointmentType :=
  if s = "counseling" then some AppointmentType.counseling
  else if s = "doctor" then some AppointmentType.doctor
  else if s = "follow_up" then some AppointmentType.follow_up
  else none

/-- `parseInt(s, 10)` for the route id parameters: the leading digit run,
`none` (NaN) when the string does not start with a digit.  (Signs and
whitespace trimming of JS parseInt are out of the id domain.) -/
def parseInt10 (s : String) : Option Nat :=
  let ds := s.data.takeWhile Char.isDigit
  if ds.isEmpty then none else toNatDigits? ds

/-- The `!Number.isNaN(new Date(s).getTime())` validity check of the POST
route, modelled for the ISO local date-time strings the API documents
(`YYYY-MM-DDTHH:MM` with optional seconds): real calendar date, hour
below 24, minute and second below 60.  Every string this accepts is a
valid JS date. -/
def isValidDateTime (s : String) : Bool :=
  match splitOnCh 'T' s.data with
  | [d, t] =>
    (match splitOnCh '-' d with
     | [ys, ms, ds] =>
       match toNatDigits? ys, toNatDigits? ms, toNatDigits? ds with
       | some y, some m, some dd =>
         decide (1 ≤ m) && decide (m ≤ 12) && decide (1 ≤ dd) &&
         decide (dd ≤ daysInMonth y m) && !ys.isEmpty
       | _, _, _ => false
     | _ => false) &&
    (match splitOnCh ':' t with
     | [hs, mins] =>
       match toNatDigits? hs, toNatDigits? mins with
       | some h, some mi => decide (h ≤ 23) && decide (mi ≤ 59) && !hs.isEmpty && !mins.isEmpty
       | _, _ => false
     | [hs, mins, secs] =>
       match toNatDigits? hs, toNatDigits? mins, toNatDigits? secs with
       | some h, some mi, some se =>
         decide (h ≤ 23) && decide (mi ≤ 59) && decide (se ≤ 59) &&
         !hs.isEmpty && !mins.isEmpty && !secs.isEmpty
       | _, _, _ => false
     | _ => false)
  | _ => false

/-- The POST /api/appointments request body after the JS numeric parses:
`studentId` and `assignedTo` are `none` when absent, null, empty or NaN. -/
structure PostBody where
  studentId : Option Nat
  scheduledAt : Option String
  type : Option String
  location : Option String
  providerOrNotes : Option String
  adminNotes : Option String
  assignedTo : Option Nat
deriving DecidableEq

/-- The human-readable booking notification body.  The source formats the
date with `toLocaleString` (host locale); the embedding keeps the raw
`scheduled_at` string in its place. -/
def bookingNotificationBody (appointment : AppointmentRow) (counselorName : Option String) : String :=
  (match appointment.location with
   | some l => "When: " ++ appointment.scheduled_at ++ "\nWhere: " ++ l
   | none => "When: " ++ appointment.scheduled_at) ++
  (match counselorName with | some n => "\nWith: " ++ n | none => "") ++
  (match appointment.provider_or_notes with | some p => "\n" ++ p | none => "") ++
  "\n\nPlease contact campus wellness if you need to reschedule or have questions."

/-- The `typeLabel` of the POST handler. -/
def typeLabel (t : AppointmentType) : String :=
  match t with
  | AppointmentType.doctor => "Doctor"
  | AppointmentType.follow_up => "Follow-up"
  | AppointmentType.counseling => "Counseling"

/-- POST /api/appointments.  Admins are rejected first; students book for
themselves, counselors must supply a studentId; a supplied assignedTo
that is not a current counselor id is silently dropped; scheduledAt must
be present and a valid date; the student must exist; on success the row
is inserted with status scheduled and a booking notification is created
for the student. -/
def postAppointment (db : DB) (caller : AuthUser) (body : PostBody) (now : String) :
    HResp × DB :=
  if caller.role = Role.admin then (HResp.forbidden, db)
  else
    let studentId? : Option Nat :=
      match caller.role with
      | Role.student => some caller.userId
      | Role.counselor => body.studentId
      | Role.admin => none
    match studentId? with
    | none => (HResp.badRequest, db)
    | some studentId =>
      let assignedTo : Option Nat :=
        body.assignedTo.bind (fun n =>
          if db.users.any (fun u => u.id == n && u.role == Role.counselor) then some n
          else none)
      match body.scheduledAt with
      | none => (HResp.badRequest, db)
      | some scheduledAt =>
        if !isValidDateTime scheduledAt then (HResp.badRequest, db)
        else if !(db.users.any (fun u => u.id == studentId && u.role == Role.student)) then
          (HResp.notFound, db)
        else
          let opts : CreateOpts :=
            { type := body.type.bind typeOfString?
              location := body.location.map (fun l => strTake l 200)
              providerOrNotes := body.providerOrNotes.map (fun p => strTake p 500)
              adminNotes := body.adminNotes.map (fun a => strTake a 500)
              assignedTo := assignedTo }
          let created := createAppointment db studentId scheduledAt caller.userId opts now
          let appointment := created.1
          let counselorName : Option String :=
            match appointment.assigned_to with
            | some cid =>
              (db.users.find? (fun u => u.id == cid && u.role == Role.counselor)).map
                (fun u => u.username)
            | none => none
          let db2 := createNotification created.2 studentId "appointment_booked"
            (typeLabel appointment.type ++ " appointment scheduled for you")
            (bookingNotificationBody appointment counselorName)
            (some "appointment") (some appointment.id)
          (HResp.created appointment, db2)

/-- GET /api/appointments.  Admins are rejected; a counselor lists
appointments assigned to them or unassigned (with an optional valid
status filter); a student lists only their own. -/
def getAppointmentsRoute (db : DB) (caller : AuthUser) (statusQ : Option String) :
    HResp × DB :=
  if caller.role = Role.admin then (HResp.forbidden, db)
  else
    let filters : ListFilters :=
      if caller.role = Role.counselor then
        { studentId := none, assignedTo := none,
          assignedToMeOrUnassigned := some caller.userId,
          status := statusQ.bind statusOfString?,
          fromDate := none, toDate := none, limit := some 200 }
      else
        { studentId := some caller.userId, assignedTo := none,
          assignedToMeOrUnassigned := none, status := none,
          fromDate := none, toDate := none, limit := some 200 }
    (HResp.okList (listAppointments db filters), db)

/-- The PATCH /api/appointments/:id request body after the JS typeof
checks: `assigned_to` distinguishes omitted (`none`), explicit null or a
non-number (`some none`), and a number (`some (some n)`); so does
`counselor_report` for null versus a string. -/
structure PatchBody where
  status : Option String
  scheduled_at : Option String
  location : Option String
  provider_or_notes : Option String
  admin_notes : Option String
  assigned_to : Option (Option Nat)
  counselor_report : Option (Option String)
deriving DecidableEq

/-- The outcome notification body of the counselor PATCH branch.  The
source formats the date with `toLocaleString`; the embedding keeps the
raw `scheduled_at` string in its place. -/
def outcomeNotificationBody (outcomeLabel dateStr counselorName : String)
    (report : Option String) : String :=
  outcomeLabel ++ " on " ++ dateStr ++ " by " ++ counselorName ++ "." ++
  (match report with | some r => "\n\nReport: " ++ r | none => "")

/-- PATCH /api/appointments/:id.  Admins are rejected first, then the id
is parsed and the row looked up.  A counselor may update only an
appointment that is unassigned or assigned to them (claim or self-manage);
the status is kept only when among the four valid values, the report is
truncated to 2000 characters, and a transition to completed or no_show
creates an outcome notification for the student.  A student may update
only their own appointment: a reschedule (non-empty scheduled_at) and/or
a cancellation, the latter only while the current status is scheduled. -/
def patchAppointment (db : DB) (caller : AuthUser) (idStr : String)
    (body : PatchBody) (now : String) : HResp × DB :=
  if caller.role = Role.admin then (HResp.forbidden, db)
  else
    match parseInt10 idStr with
    | none => (HResp.badRequest, db)
    | some id =>
      match getAppointmentById db id with
      | none => (HResp.notFound, db)
      | some existing =>
        match caller.role with
        | Role.counselor =>
          let isAssignedToMe := existing.assigned_to == some caller.userId
          let isUnassigned := existing.assigned_to == none
          if !isAssignedToMe && !isUnassigned then (HResp.forbidden, db)
          else
            let newStatus := body.status.bind statusOfString?
            let reportText : Option String :=
              match body.counselor_report with
              | some (some s) => some (strTake s 2000)
              | _ => none
            let newScheduledAt := body.scheduled_at.bind (fun v => if v = "" then none else some v)
            let updates : ApptUpdates :=
              { status := newStatus
                scheduled_at := newScheduledAt
                location := none
                provider_or_notes := none
                admin_notes := none
                assigned_to := body.assigned_to
                counselor_report := reportText.map some }
            let res := updateAppointment db id updates now
            let db2 :=
              match res.1, newStatus with
              | some updated, some AppointmentStatus.completed =>
                createNotification res.2 existing.student_id "appointment_outcome"
                  "Appointment Completed"
                  (outcomeNotificationBody "Completed" existing.scheduled_at caller.username
                    updated.counselor_report)
                  (some "appointment") (some id)
              | some updated, some AppointmentStatus.no_show =>
                createNotification res.2 existing.student_id "appointment_outcome"
                  "Appointment Missed (no-show)"
                  (outcomeNotificationBody "Missed (no-show)" existing.scheduled_at caller.username
                    updated.counselor_report)
                  (some "appointment") (some id)
              | _, _ => res.2
            (HResp.okA res.1, db2)
        | Role.student =>
          if !(existing.student_id == caller.userId) then (HResp.forbidden, db)
          else
            let newScheduledAt := body.scheduled_at.bind (fun v => if v = "" then none else some v)
            let newStatus : Option AppointmentStatus :=
              if body.status == some "cancelled" then some AppointmentStatus.cancelled else none
            if newStatus.isSome && !(existing.status == AppointmentStatus.scheduled) then
              (HResp.badRequest, db)
            else
              let res := updateAppointment db id
                { ApptUpdates.empty with scheduled_at := newScheduledAt, status := newStatus } now
              (HResp.okA res.1, res.2)
        | Role.admin => (HResp.forbidden, db)

/-- DELETE /api/appointments/:id.  Admins are rejected first, then the id
is parsed and the row looked up; a counselor is rejected when the row is
not assigned to them; then the row is hard-deleted with no notification.
(The source places no ownership check on the student role.) -/
def deleteAppointmentRoute (db : DB) (caller : AuthUser) (idStr : String) :
    HResp × DB :=
  if caller.role = Role.admin then (HResp.forbidden, db)
  else
    match parseInt10 idStr with
    | none => (HResp.badRequest, db)
    | some id =>
      match getAppointmentById db id with
      | none => (HResp.notFound, db)
      | some existing =>
        if caller.role = Role.counselor ∧ ¬(existing.assigned_to = some caller.userId) then
          (HResp.forbidden, db)
        else
          let res := deleteAppointment db id
          if !res.1 then (HResp.notFound, db)
          else (HResp.noContent, res.2)

-- ------------------------------------------------------------------
-- Helper lemmas: decimal printing and parsing round-trip
-- ------------------------------------------------------------------

lemma digitChar_isDigit : ∀ n, n < 10 → (digitChar n).isDigit = true := by decide

lemma digitChar_toNat : ∀ n, n < 10 → (digitChar n).toNat = 48 + n := by decide

lemma toNatDigitsAux_append (xs ys : List Char) (acc : Nat) :
    toNatDigitsAux (xs ++ ys) acc =
      (toNatDigitsAux xs acc).bind (fun v => toNatDigitsAux ys v) := by
  induction xs generalizing acc with
  | nil => rfl
  | cons c cs ih =>
    simp only [List.cons_append, toNatDigitsAux]
    by_cases h : c.isDigit
    · simp [h, ih]
    · simp [h]

lemma natCharsAux_val : ∀ fuel n acc, n < fuel →
    toNatDigitsAux (natCharsAux fuel n) acc =
      some (acc * 10 ^ (natCharsAux fuel n).length + n) := by
  intro fuel
  induction fuel with
  | zero => intro n acc h; omega
  | succ fuel ih =>
    intro n acc h
    by_cases h10 : n < 10
    · simp only [natCharsAux, if_pos h10, toNatDigitsAux, digitChar_isDigit n h10,
        digitChar_toNat n h10, if_pos, List.length_singleton, pow_one]
      congr 1
      omega
    · have hn : 0 < n := by omega
      have hdiv : n / 10 < fuel := by
        have := Nat.div_lt_self hn (by omega : 1 < (10 : Nat))
        omega
      simp only [natCharsAux, if_neg h10, toNatDigitsAux_append, ih (n / 10) acc hdiv,
        Option.bind_some, toNatDigitsAux, digitChar_isDigit (n % 10) (Nat.mod_lt n (by omega)),
        digitChar_toNat (n % 10) (Nat.mod_lt n (by omega)), if_pos, List.length_append,
        List.length_singleton]
      have h48 : 48 + n % 10 - 48 = n % 10 := by omega
      rw [h48, pow_succ]
      have hmod : 10 * (n / 10) + n % 10 = n := Nat.div_add_mod n 10
      have hring : (acc * 10 ^ (natCharsAux fuel (n / 10)).length + n / 10) * 10 + n % 10 =
          acc * (10 ^ (natCharsAux fuel (n / 10)).length * 10) + (10 * (n / 10) + n % 10) := by
        ring
      have hbind : ((some (acc * 10 ^ (natCharsAux fuel (n / 10)).length + n / 10)).bind
          fun a => some (a * 10 + n % 10)) =
          some ((acc * 10 ^ (natCharsAux fuel (n / 10)).length + n / 10) * 10 + n % 10) := rfl
      rw [hbind, hring, hmod]

lemma toNatDigits_natChars (n : Nat) : toNatDigits? (natChars n) = some n := by
  unfold toNatDigits? natChars
  rw [natCharsAux_val (n + 1) n 0 (Nat.lt_succ_self n)]
  simp

lemma toNatDigits_pad2c (n : Nat) : toNatDigits? (pad2c n) = some n := by
  unfold pad2c
  by_cases h : n < 10
  · have h0 : ('0'.isDigit) = true := by decide
    simp only [if_pos h, toNatDigits?, toNatDigitsAux, h0, if_pos]
    have hv : (0 * 10 + ('0'.toNat - 48)) = 0 := by decide
    rw [hv]
    exact toNatDigits_natChars n
  · simp only [if_neg h]
    exact toNatDigits_natChars n

lemma natCharsAux_digits : ∀ fuel n, n < fuel → ∀ c ∈ natCharsAux fuel n, c.isDigit = true := by
  intro fuel
  induction fuel with
  | zero => intro n h; omega
  | succ fuel ih =>
    intro n h c hc
    by_cases h10 : n < 10
    · simp only [natCharsAux, if_pos h10, List.mem_singleton] at hc
      exact hc ▸ digitChar_isDigit n h10
    · have hn : 0 < n := by omega
      have hdiv : n / 10 < fuel := by
        have := Nat.div_lt_self hn (by omega : 1 < (10 : Nat))
        omega
      simp only [natCharsAux, if_neg h10, List.mem_append, List.mem_singleton] at hc
      rcases hc with hc | hc
      · exact ih (n / 10) hdiv c hc
      · exact hc ▸ digitChar_isDigit (n % 10) (Nat.mod_lt n (by omega))

lemma pad2c_digits (n : Nat) : ∀ c ∈ pad2c n, c.isDigit = true := by
  intro c hc
  unfold pad2c at hc
  by_cases h : n < 10
  · simp only [if_pos h, List.mem_cons] at hc
    rcases hc with hc | hc
    · simp [hc]
    · exact natCharsAux_digits (n + 1) n (Nat.lt_succ_self n) c hc
  · simp only [if_neg h] at hc
    exact natCharsAux_digits (n + 1) n (Nat.lt_succ_self n) c hc

lemma not_mem_pad2c_of_not_digit (sep : Char) (h : sep.isDigit = false) (n : Nat) :
    sep ∉ pad2c n := by
  intro hmem
  have := pad2c_digits n sep hmem
  rw [h] at this
  exact Bool.false_ne_true this

-- ------------------------------------------------------------------
-- Helper lemmas: split
-- ------------------------------------------------------------------

lemma splitOnCh_of_not_mem (sep : Char) (l : List Char) (h : sep ∉ l) :
    splitOnCh sep l = [l] := by
  induction l with
  | nil => rfl
  | cons c cs ih =>
    have hc : ¬(c = sep) := fun e => h (e ▸ List.mem_cons_self c cs)
    have ht : sep ∉ cs := fun m => h (List.mem_cons_of_mem c m)
    simp only [splitOnCh, if_neg hc, ih ht]

lemma splitOnCh_append (sep : Char) (a b : List Char) (h : sep ∉ a) :
    splitOnCh sep (a ++ sep :: b) = a :: splitOnCh sep b := by
  induction a with
  | nil => simp [splitOnCh]
  | cons c cs ih =>
    have hc : ¬(c = sep) := fun e => h (e ▸ List.mem_cons_self c cs)
    have ht : sep ∉ cs := fun m => h (List.mem_cons_of_mem c m)
    simp only [List.cons_append, splitOnCh, if_neg hc, List.append_eq, ih ht]

lemma data_minutesToTime (m : Nat) :
    (minutesToTime m).data = pad2c (m / 60) ++ ':' :: pad2c (m % 60) := by
  unfold minutesToTime pad2
  rw [String.data_append, String.data_append, List.append_assoc]
  rfl

lemma timeToMinutes_minutesToTime (m : Nat) : timeToMinutes (minutesToTime m) = m := by
  unfold timeToMinutes
  rw [data_minutesToTime,
    splitOnCh_append ':' _ _ (not_mem_pad2c_of_not_digit ':' (by decide) _),
    splitOnCh_of_not_mem ':' _ (not_mem_pad2c_of_not_digit ':' (by decide) _)]
  simp [toNatDigits_pad2c]
  omega

-- ------------------------------------------------------------------
-- Helper lemmas: lexicographic order and month lengths
-- ------------------------------------------------------------------

lemma lexLt_append_left (p a b : List Char) : lexLt (p ++ a) (p ++ b) = lexLt a b := by
  induction p with
  | nil => rfl
  | cons c cs ih => simp [lexLt, ih]

lemma daysInMonth_le_31 (y m : Nat) : daysInMonth y m ≤ 31 := by
  have h : ∀ yy : Nat,
      (if m = 2 then (if yy % 4 = 0 ∧ (yy % 100 ≠ 0 ∨ yy % 400 = 0) then 29 else 28)
       else if m = 4 ∨ m = 6 ∨ m = 9 ∨ m = 11 then 30 else 31) ≤ 31 := by
    intro yy
    repeat' split
    all_goals omega
  exact h (if y ≤ 99 then 1900 + y else y)

lemma pad2c_lt_of_lt : ∀ j, j < 32 → ∀ i, i < j → lexLt (pad2c i) (pad2c j) = true := by decide

lemma mkDateStr_lt_of_lt (y m : Nat) {i j : Nat} (hj : j < 32) (hij : i < j) :
    lexLt (mkDateStr y m i).data (mkDateStr y m j).data = true := by
  unfold mkDateStr pad2
  have hdata : ∀ d : Nat, (natStr y ++ "-" ++ String.mk (pad2c m) ++ "-" ++ String.mk (pad2c d)).data
      = (natStr y ++ "-" ++ String.mk (pad2c m) ++ "-").data ++ pad2c d := by
    intro d
    rw [String.data_append]
  rw [hdata i, hdata j, lexLt_append_left]
  exact pad2c_lt_of_lt j hj i hij

-- ------------------------------------------------------------------
-- Helper lemmas: slot generation
-- ------------------------------------------------------------------

lemma mem_slotTimesBetween (s e t : String) :
    t ∈ slotTimesBetween s e ↔
      ∃ i, timeToMinutes s + 30 * i + 30 ≤ timeToMinutes e ∧
        t = minutesToTime (timeToMinutes s + 30 * i) := by
  unfold slotTimesBetween SLOT_MINUTES
  simp only [List.mem_map, List.mem_range]
  have hiff : ∀ i, i < (timeToMinutes e - timeToMinutes s) / 30 ↔
      timeToMinutes s + 30 * i + 30 ≤ timeToMinutes e := by
    intro i
    rw [Nat.lt_iff_add_one_le, Nat.le_div_iff_mul_le (by omega : 0 < 30)]
    omega
  constructor
  · rintro ⟨i, hi, rfl⟩
    exact ⟨i, (hiff i).mp hi, rfl⟩
  · rintro ⟨i, hi, rfl⟩
    exact ⟨i, (hiff i).mpr hi, rfl⟩

lemma slotTimesBetween_eq_nil (s e : String)
    (h : timeToMinutes e < timeToMinutes s + 30) : slotTimesBetween s e = [] := by
  have h0 : (timeToMinutes e - timeToMinutes s) / 30 = 0 := by
    apply Nat.div_eq_of_lt
    omega
  rw [show slotTimesBetween s e = (List.range ((timeToMinutes e - timeToMinutes s) / 30)).map
      (fun i => minutesToTime (timeToMinutes s + 30 * i)) from rfl, h0]
  rfl

lemma mem_getAvailableSlots_iff_unsorted (db : DB) (date : String) (cid : Option Nat)
    (ty : Option AppointmentType) (slot : SlotOption) :
    slot ∈ getAvailableSlots db date cid ty ↔ slot ∈ unsortedSlots db date cid ty := by
  unfold getAvailableSlots
  exact List.mem_mergeSort

/-- The source condition under which a stored appointment blocks the slot
start `t` of provider `pid` on `date`: assigned to the provider, status
scheduled, scheduled_at inside the date range of the booked query, and
minute-truncated key equal to the minute-truncated slot start. -/
def blocksB (a : AppointmentRow) (pid : Nat) (date t : String) : Bool :=
  a.assigned_to == some pid && a.status == AppointmentStatus.scheduled &&
  strLeB (date ++ "T00:00:00") a.scheduled_at &&
  strLeB a.scheduled_at (date ++ "T23:59:59") &&
  strTake a.scheduled_at 16 == strTake (date ++ "T" ++ t ++ ":00") 16

lemma bookedStarts_contains_iff (db : DB) (pid : Nat) (date t : String) :
    (bookedStarts db pid date).contains (strTake (date ++ "T" ++ t ++ ":00") 16) = true ↔
      ∃ a ∈ db.appointments, blocksB a pid date t = true := by
  unfold bookedStarts blocksB
  simp only [List.contains, List.elem_iff, List.mem_map, List.mem_filter,
    Bool.and_eq_true, beq_iff_eq]
  tauto

lemma ite_none_some_eq_some {α : Type} (b : Bool) (x y : α) :
    ((if b then (none : Option α) else some x) = some y) ↔ b = false ∧ x = y := by
  cases b <;> simp

lemma mem_unsortedSlots (db : DB) (date : String) (cid : Option Nat)
    (ty : Option AppointmentType) (slot : SlotOption) :
    slot ∈ unsortedSlots db date cid ty ↔
      ∃ c ∈ (candidateProviders db cid).filter (typeFilter ty),
        ∃ w ∈ db.availability, w.user_id = c.id ∧ w.day_of_week = dayOfWeekOf date ∧
          ∃ t ∈ slotTimesBetween w.start_time w.end_time,
            (bookedStarts db c.id date).contains (strTake (date ++ "T" ++ t ++ ":00") 16) = false ∧
            slot = mkSlot date t c := by
  unfold unsortedSlots providerSlots
  simp only [List.mem_flatMap, List.mem_filter, List.mem_filterMap, Bool.and_eq_true,
    beq_iff_eq, ite_none_some_eq_some]
  constructor
  · rintro ⟨c, hc, w, ⟨hw, hwid, hwdow⟩, t, ht, hbk, hslot⟩
    exact ⟨c, hc, w, hw, hwid, hwdow, t, ht, hbk, hslot.symm⟩
  · rintro ⟨c, hc, w, hw, hwid, hwdow, t, ht, hbk, hslot⟩
    exact ⟨c, hc, w, ⟨hw, hwid, hwdow⟩, t, ht, hbk, hslot.symm⟩

-- ------------------------------------------------------------------
-- Example fixtures for the concrete scenarios
-- ------------------------------------------------------------------

/-- A counselor provider used by the concrete slot scenarios. -/
def exCounselor : User :=
  { id := 1, username := "c", role := Role.counselor, provider_type := ProviderType.counselor }

/-- One provider with a single Monday 09:00 to 10:00 window and no
bookings.  2025-03-10 is a Monday (day_of_week 1). -/
def exDb1 : DB :=
  { users := [exCounselor]
    appointments := []
    availability := [{ user_id := 1, day_of_week := 1, start_time := "09:00", end_time := "10:00" }]
    notifications := []
    nextApptId := 1 }

-- ------------------------------------------------------------------
-- Claim theorems
-- ------------------------------------------------------------------

/-- C1: for every availability window the Slot Generator emits slot starts
exactly at 30-minute steps from start_time, keeping those offsets m with
m + 30 minutes at most end_time; every emitted SlotOption has
end = start + 30 minutes; a 09:00 to 10:00 window with no bookings yields
exactly the slots 09:00 and 09:30; a window shorter than 30 minutes
yields no slots. -/
theorem c1_slot_generation_thirty_minute_steps :
    (∀ s e t, t ∈ slotTimesBetween s e ↔
        ∃ i, timeToMinutes s + 30 * i + 30 ≤ timeToMinutes e ∧
          t = minutesToTime (timeToMinutes s + 30 * i)) ∧
    (∀ db date cid ty slot, slot ∈ getAvailableSlots db date cid ty →
        ∃ m, slot.start = date ++ "T" ++ minutesToTime m ++ ":00" ∧
          slot.«end» = date ++ "T" ++ minutesToTime (m + 30) ++ ":00") ∧
    (∀ s e, timeToMinutes e < timeToMinutes s + 30 → slotTimesBetween s e = []) ∧
    getAvailableSlots exDb1 "2025-03-10" none none =
      [mkSlot "2025-03-10" "09:00" exCounselor, mkSlot "2025-03-10" "09:30" exCounselor] := by
  refine ⟨mem_slotTimesBetween, ?_, slotTimesBetween_eq_nil, ?_⟩
  · intro db date cid ty slot hmem
    rw [mem_getAvailableSlots_iff_unsorted, mem_unsortedSlots] at hmem
    obtain ⟨c, -, w, -, -, -, t, ht, -, rfl⟩ := hmem
    rw [mem_slotTimesBetween] at ht
    obtain ⟨i, -, rfl⟩ := ht
    refine ⟨timeToMinutes w.start_time + 30 * i, rfl, ?_⟩
    simp [mkSlot, SLOT_MINUTES, timeToMinutes_minutesToTime]
  · have hu : unsortedSlots exDb1 "2025-03-10" none none =
        [mkSlot "2025-03-10" "09:00" exCounselor, mkSlot "2025-03-10" "09:30" exCounselor] := by
      decide
    unfold getAvailableSlots
    rw [hu]
    exact List.mergeSort_of_sorted (by decide)

/-- Closed instantiation of C1: the window 09:00 to 10:00 contains the
start 09:00, a 20-minute window yields no slots, and the first emitted
slot of the concrete database has end = start + 30 minutes. -/
theorem c1_slot_generation_thirty_minute_steps_witness :
    ("09:00" ∈ slotTimesBetween "09:00" "10:00") ∧
    slotTimesBetween "09:00" "09:20" = [] ∧
    (∃ m, (mkSlot "2025-03-10" "09:00" exCounselor).start =
        "2025-03-10" ++ "T" ++ minutesToTime m ++ ":00" ∧
      (mkSlot "2025-03-10" "09:00" exCounselor).«end» =
        "2025-03-10" ++ "T" ++ minutesToTime (m + 30) ++ ":00") := by
  refine ⟨?_, ?_, ?_⟩
  · exact (c1_slot_generation_thirty_minute_steps.1 "09:00" "10:00" "09:00").mpr
      ⟨0, by decide, by decide⟩
  · exact c1_slot_generation_thirty_minute_steps.2.2.1 "09:00" "09:20" (by decide)
  · refine c1_slot_generation_thirty_minute_steps.2.1 exDb1 "2025-03-10" none none
      (mkSlot "2025-03-10" "09:00" exCounselor) ?_
    rw [c1_slot_generation_thirty_minute_steps.2.2.2]
    exact List.mem_cons_self _ _

/-- The status flip a cancellation performs on one stored appointment row
(the UPDATE of `updateAppointment` restricted to the status column). -/
def setApptStatus (db : DB) (k : Nat) (st : AppointmentStatus) : DB :=
  { db with appointments :=
      db.appointments.map (fun a => if a.id == k then { a with status := st } else a) }

lemma blocksB_eq_false_of_status {a : AppointmentRow} (pid : Nat) (date t : String)
    (h : a.status ≠ AppointmentStatus.scheduled) : blocksB a pid date t = false := by
  unfold blocksB
  have hb : (a.status == AppointmentStatus.scheduled) = false := by
    simp [h]
  rw [hb]
  simp

lemma mkSlot_mem_iff (db : DB) (date : String) (cid : Option Nat)
    (ty : Option AppointmentType) (c : User) (t : String)
    (hc : c ∈ (candidateProviders db cid).filter (typeFilter ty))
    (hw : ∃ w ∈ db.availability, w.user_id = c.id ∧ w.day_of_week = dayOfWeekOf date ∧
      t ∈ slotTimesBetween w.start_time w.end_time) :
    mkSlot date t c ∈ getAvailableSlots db date cid ty ↔
      ¬ ∃ a ∈ db.appointments, blocksB a c.id date t = true := by
  rw [mem_getAvailableSlots_iff_unsorted, mem_unsortedSlots]
  constructor
  · rintro ⟨cx, hcx, wx, hwx, hwidx, hwdowx, tx, htx, hbkx, heq⟩ hex
    obtain ⟨a, ha, hab⟩ := hex
    have hids : c.id = cx.id := congrArg SlotOption.counselor_id heq
    have hstart : date ++ "T" ++ t ++ ":00" = date ++ "T" ++ tx ++ ":00" :=
      congrArg SlotOption.start heq
    have hkey : strTake (date ++ "T" ++ t ++ ":00") 16 =
        strTake (date ++ "T" ++ tx ++ ":00") 16 := by rw [hstart]
    have habx : blocksB a cx.id date tx = true := by
      unfold blocksB at hab ⊢
      rw [← hids, ← hkey]
      exact hab
    have hcontains := (bookedStarts_contains_iff db cx.id date tx).mpr ⟨a, ha, habx⟩
    rw [hbkx] at hcontains
    exact Bool.false_ne_true hcontains
  · intro hnone
    obtain ⟨w, hwmem, hwid, hwdow, ht⟩ := hw
    refine ⟨c, hc, w, hwmem, hwid, hwdow, t, ht, ?_, rfl⟩
    cases hcb : (bookedStarts db c.id date).contains (strTake (date ++ "T" ++ t ++ ":00") 16) with
    | false => rfl
    | true => exact absurd ((bookedStarts_contains_iff db c.id date t).mp hcb) hnone

/-- C2: a generated slot start is omitted exactly when some appointment of
the provider with status scheduled, falling inside the queried date range,
has the same minute-truncated timestamp; appointments in any other status
never block a slot; and flipping the sole blocking appointment to
cancelled restores the slot. -/
theorem c2_booked_slots_blocked_only_by_scheduled :
    (∀ db date cid ty c t,
        c ∈ (candidateProviders db cid).filter (typeFilter ty) →
        (∃ w ∈ db.availability, w.user_id = c.id ∧ w.day_of_week = dayOfWeekOf date ∧
          t ∈ slotTimesBetween w.start_time w.end_time) →
        (mkSlot date t c ∈ getAvailableSlots db date cid ty ↔
          ¬ ∃ a ∈ db.appointments, blocksB a c.id date t = true)) ∧
    (∀ (a : AppointmentRow) pid date t, a.status ≠ AppointmentStatus.scheduled →
        blocksB a pid date t = false) ∧
    (∀ db date cid ty c t k,
        c ∈ (candidateProviders db cid).filter (typeFilter ty) →
        (∃ w ∈ db.availability, w.user_id = c.id ∧ w.day_of_week = dayOfWeekOf date ∧
          t ∈ slotTimesBetween w.start_time w.end_time) →
        (∃ a ∈ db.appointments, blocksB a c.id date t = true) →
        (∀ a ∈ db.appointments, blocksB a c.id date t = true → a.id = k) →
        mkSlot date t c ∉ getAvailableSlots db date cid ty ∧
          mkSlot date t c ∈
            getAvailableSlots (setApptStatus db k AppointmentStatus.cancelled) date cid ty) := by
  refine ⟨mkSlot_mem_iff, ?_, ?_⟩
  · intro a pid date t h
    exact blocksB_eq_false_of_status pid date t h
  · intro db date cid ty c t k hc hw hex hall
    constructor
    · rw [mkSlot_mem_iff db date cid ty c t hc hw]
      exact not_not_intro hex
    · have hc2 : c ∈ (candidateProviders (setApptStatus db k AppointmentStatus.cancelled) cid).filter
          (typeFilter ty) := hc
      have hw2 : ∃ w ∈ (setApptStatus db k AppointmentStatus.cancelled).availability,
          w.user_id = c.id ∧ w.day_of_week = dayOfWeekOf date ∧
          t ∈ slotTimesBetween w.start_time w.end_time := hw
      rw [mkSlot_mem_iff _ date cid ty c t hc2 hw2]
      rintro ⟨ax, hax, habx⟩
      simp only [setApptStatus, List.mem_map] at hax
      obtain ⟨a, ha, rfl⟩ := hax
      by_cases hk : (a.id == k) = true
      · rw [if_pos hk] at habx
        have hst : ({ a with status := AppointmentStatus.cancelled } : AppointmentRow).status ≠
            AppointmentStatus.scheduled := by simp
        rw [blocksB_eq_false_of_status c.id date t hst] at habx
        exact Bool.false_ne_true habx
      · rw [if_neg hk] at habx
        have hid := hall a ha habx
        exact hk (by simp [hid])

/-- A booking occupying the 09:00 Monday slot of the example provider. -/
def exBooked : AppointmentRow :=
  { id := 7, student_id := 5, assigned_to := some 1,
    scheduled_at := "2025-03-10T09:00:00", type := AppointmentType.counseling,
    status := AppointmentStatus.scheduled, location := none,
    provider_or_notes := none, admin_notes := none, counselor_report := none,
    created_by := 5, created_at := "2025-03-01T08:00:00",
    updated_at := "2025-03-01T08:00:00" }

/-- The example provider with the 09:00 Monday slot booked. -/
def exDb2 : DB :=
  { users := [exCounselor]
    appointments := [exBooked]
    availability := [{ user_id := 1, day_of_week := 1, start_time := "09:00", end_time := "10:00" }]
    notifications := []
    nextApptId := 8 }

/-- Closed instantiation of C2: with the 09:00 slot booked (scheduled) the
slot is omitted, and after flipping that booking to cancelled the same
query returns it again. -/
theorem c2_booked_slots_blocked_only_by_scheduled_witness :
    mkSlot "2025-03-10" "09:00" exCounselor ∉
        getAvailableSlots exDb2 "2025-03-10" none none ∧
      mkSlot "2025-03-10" "09:00" exCounselor ∈
        getAvailableSlots (setApptStatus exDb2 7 AppointmentStatus.cancelled)
          "2025-03-10" none none := by
  refine c2_booked_slots_blocked_only_by_scheduled.2.2 exDb2 "2025-03-10" none none
    exCounselor "09:00" 7 (by decide) ?_ ?_ (by decide)
  · exact ⟨{ user_id := 1, day_of_week := 1, start_time := "09:00", end_time := "10:00" },
      by decide, by decide, by decide, by decide⟩
  · exact ⟨exBooked, by decide, by decide⟩

/-- C3: for every year-month and filter combination, getDatesWithSlots
returns, in ascending order, exactly the dates of that month on which
getAvailableSlots with the same filters is non-empty. -/
theorem c3_dates_with_slots_exactly_nonempty_days :
    ∀ db month cid ty,
      (∀ ds, ds ∈ getDatesWithSlots db month cid ty ↔
        ((parseMonth month).1 ≠ 0 ∧ (parseMonth month).2 ≠ 0 ∧ (parseMonth month).2 ≤ 12 ∧
          ∃ d, 1 ≤ d ∧ d ≤ daysInMonth (parseMonth month).1 (parseMonth month).2 ∧
            ds = mkDateStr (parseMonth month).1 (parseMonth month).2 d ∧
            getAvailableSlots db ds cid ty ≠ [])) ∧
      List.Pairwise (fun a b => lexLt a.data b.data = true)
        (getDatesWithSlots db month cid ty) := by
  intro db month cid ty
  constructor
  · intro ds
    unfold getDatesWithSlots
    by_cases hguard : (parseMonth month).1 = 0 ∨ (parseMonth month).2 = 0 ∨
        12 < (parseMonth month).2
    · rw [if_pos hguard]
      simp only [List.not_mem_nil, false_iff]
      rintro ⟨h1, h2, h3, -⟩
      rcases hguard with h | h | h <;> omega
    · rw [if_neg hguard]
      push_neg at hguard
      obtain ⟨hy, hm, hm12⟩ := hguard
      simp only [List.mem_filter, List.mem_map, List.mem_range, decide_eq_true_eq]
      constructor
      · rintro ⟨⟨i, hi, rfl⟩, hlen⟩
        exact ⟨hy, hm, by omega, i + 1, by omega, by omega, rfl, List.length_pos.mp hlen⟩
      · rintro ⟨-, -, -, d, hd1, hd2, rfl, hne⟩
        refine ⟨⟨d - 1, by omega, ?_⟩, List.length_pos.mpr hne⟩
        congr 1
        omega
  · unfold getDatesWithSlots
    by_cases hguard : (parseMonth month).1 = 0 ∨ (parseMonth month).2 = 0 ∨
        12 < (parseMonth month).2
    · rw [if_pos hguard]
      exact List.Pairwise.nil
    · rw [if_neg hguard]
      apply List.Pairwise.filter
      rw [List.pairwise_map, List.pairwise_iff_getElem]
      intro i j hi hj hij
      simp only [List.getElem_range]
      have hlen : (List.range (daysInMonth (parseMonth month).1 (parseMonth month).2)).length =
          daysInMonth (parseMonth month).1 (parseMonth month).2 := List.length_range _
      rw [hlen] at hi hj
      have h31 := daysInMonth_le_31 (parseMonth month).1 (parseMonth month).2
      exact mkDateStr_lt_of_lt _ _ (by omega) (by omega)

/-- C9: updateAppointment has merge-patch semantics — omitted fields keep
their prior values, supplied fields take the supplied value (explicit null
clears a nullable field), the identity fields id, student_id, created_by,
type and created_at never change, other rows are untouched, and an unknown
id yields a not-found signal with no row modified. -/
theorem c9_update_appointment_merge_patch :
    ∀ db id u now,
      (db.appointments.find? (fun a => a.id == id) = none →
        updateAppointment db id u now = (none, db)) ∧
      (∀ ex, db.appointments.find? (fun a => a.id == id) = some ex →
        ∃ r, updateAppointment db id u now =
            (some r,
             { db with appointments := db.appointments.map (fun a => if a.id == id then r else a) }) ∧
          r.id = ex.id ∧ r.student_id = ex.student_id ∧ r.created_by = ex.created_by ∧
          r.type = ex.type ∧ r.created_at = ex.created_at ∧
          (u.scheduled_at = none → r.scheduled_at = ex.scheduled_at) ∧
          (∀ v, u.scheduled_at = some v → r.scheduled_at = v) ∧
          (u.status = none → r.status = ex.status) ∧
          (∀ v, u.status = some v → r.status = v) ∧
          (u.location = none → r.location = ex.location) ∧
          (∀ v, u.location = some v → r.location = some v) ∧
          (u.provider_or_notes = none → r.provider_or_notes = ex.provider_or_notes) ∧
          (∀ v, u.provider_or_notes = some v → r.provider_or_notes = some v) ∧
          (u.admin_notes = none → r.admin_notes = ex.admin_notes) ∧
          (∀ v, u.admin_notes = some v → r.admin_notes = some v) ∧
          (u.assigned_to = none → r.assigned_to = ex.assigned_to) ∧
          (∀ v, u.assigned_to = some v → r.assigned_to = v) ∧
          (u.counselor_report = none → r.counselor_report = ex.counselor_report) ∧
          (∀ v, u.counselor_report = some v → r.counselor_report = v) ∧
          r.updated_at = now) := by
  intro db id u now
  constructor
  · intro hnone
    unfold updateAppointment
    rw [hnone]
  · intro ex hex
    unfold updateAppointment
    rw [hex]
    refine ⟨_, rfl, rfl, rfl, rfl, rfl, rfl, ?_, ?_, ?_, ?_, ?_, ?_, ?_, ?_, ?_, ?_, ?_, ?_,
      ?_, ?_, rfl⟩
    · intro h; simp [h]
    · intro v h; simp [h]
    · intro h; simp [h]
    · intro v h; simp [h]
    · intro h; simp [h]
    · intro v h; simp [h]
    · intro h; simp [h]
    · intro v h; simp [h]
    · intro h; simp [h]
    · intro v h; simp [h]
    · intro h; simp [h]
    · intro v h; simp [h]
    · intro h; simp [h]
    · intro v h; simp [h]

/-- Closed instantiation of C9: updating only the status of the stored
example booking keeps every other field and changes the status. -/
theorem c9_update_appointment_merge_patch_witness :
    ∃ r, updateAppointment exDb2 7
        { status := some AppointmentStatus.completed, scheduled_at := none, location := none,
          provider_or_notes := none, admin_notes := none, assigned_to := none,
          counselor_report := none } "2025-03-11T00:00:00" =
      (some r,
       { exDb2 with appointments :=
          exDb2.appointments.map (fun a => if a.id == 7 then r else a) }) ∧
    r.status = AppointmentStatus.completed ∧ r.scheduled_at = exBooked.scheduled_at := by
  obtain ⟨r, heq, -, -, -, -, -, hsch, -, -, hst, -⟩ :=
    (c9_update_appointment_merge_patch exDb2 7
      { status := some AppointmentStatus.completed, scheduled_at := none, location := none,
        provider_or_notes := none, admin_notes := none, assigned_to := none,
        counselor_report := none } "2025-03-11T00:00:00").2 exBooked (by decide)
  exact ⟨r, heq, hst AppointmentStatus.completed rfl, hsch rfl⟩

lemma updateAppointment_found (db : DB) (id : Nat) (u : ApptUpdates) (now : String)
    (ex : AppointmentRow) (hex : db.appointments.find? (fun a => a.id == id) = some ex) :
    updateAppointment db id u now =
      (some { ex with
          scheduled_at := u.scheduled_at.getD ex.scheduled_at
          status := u.status.getD ex.status
          location := match u.location with | some v => some v | none => ex.location
          provider_or_notes :=
            match u.provider_or_notes with | some v => some v | none => ex.provider_or_notes
          admin_notes := match u.admin_notes with | some v => some v | none => ex.admin_notes
          assigned_to := u.assigned_to.getD ex.assigned_to
          counselor_report := u.counselor_report.getD ex.counselor_report
          updated_at := now },
       { db with appointments := db.appointments.map (fun a => if a.id == id then
          { ex with
            scheduled_at := u.scheduled_at.getD ex.scheduled_at
            status := u.status.getD ex.status
            location := match u.location with | some v => some v | none => ex.location
            provider_or_notes :=
              match u.provider_or_notes with | some v => some v | none => ex.provider_or_notes
            admin_notes := match u.admin_notes with | some v => some v | none => ex.admin_notes
            assigned_to := u.assigned_to.getD ex.assigned_to
            counselor_report := u.counselor_report.getD ex.counselor_report
            updated_at := now }
          else a) }) := by
  unfold updateAppointment
  rw [hex]

/-- C4: a counselor request on an appointment assigned to a different
counselor is rejected as forbidden with the store unchanged; on an
unassigned appointment or one assigned to the caller the update is
applied — the status only when among the four valid values, the report
truncated to 2000 characters, and an unassigned appointment can be
claimed by setting assigned_to to the caller. -/
theorem c4_counselor_claim_or_self_manage :
    ∀ db caller idStr body now id existing,
      caller.role = Role.counselor →
      parseInt10 idStr = some id →
      getAppointmentById db id = some existing →
      ((∀ other, existing.assigned_to = some other → other ≠ caller.userId →
          patchAppointment db caller idStr body now = (HResp.forbidden, db)) ∧
       ((existing.assigned_to = none ∨ existing.assigned_to = some caller.userId) →
          ∃ r db2,
            patchAppointment db caller idStr body now = (HResp.okA (some r), db2) ∧
            r.status = (body.status.bind statusOfString?).getD existing.status ∧
            (∀ s, body.counselor_report = some (some s) →
              r.counselor_report = some (strTake s 2000)) ∧
            (body.assigned_to = some (some caller.userId) →
              r.assigned_to = some caller.userId) ∧
            r.id = existing.id ∧ r.student_id = existing.student_id ∧
            db2.appointments = db.appointments.map (fun a => if a.id == id then r else a))) := by
  intro db caller idStr body now id existing hrole hparse hget
  have hadmin : ¬ caller.role = Role.admin := by
    rw [hrole]
    exact fun h => Role.noConfusion h
  constructor
  · intro other hassigned hne
    unfold patchAppointment
    simp only [if_neg hadmin, hparse, hget, hrole]
    rw [hassigned]
    simp [hne]
  · intro hok
    unfold patchAppointment
    simp only [if_neg hadmin, hparse, hget, hrole]
    have hguard : (!(existing.assigned_to == some caller.userId) &&
        !(existing.assigned_to == none)) = false := by
      rcases hok with h | h <;> simp [h]
    rw [hguard]
    simp only [Bool.false_eq_true, if_false]
    rw [updateAppointment_found db id _ now existing hget]
    cases hst : body.status.bind statusOfString? with
    | none =>
      refine ⟨_, _, rfl, ?_, ?_, ?_, rfl, rfl, rfl⟩
      · simp [hst]
      · intro s hs
        simp [hs]
      · intro ha
        simp [ha]
    | some st =>
      cases st with
      | completed =>
        refine ⟨_, _, rfl, ?_, ?_, ?_, rfl, rfl, rfl⟩
        · simp [hst]
        · intro s hs
          simp [hs]
        · intro ha
          simp [ha]
      | no_show =>
        refine ⟨_, _, rfl, ?_, ?_, ?_, rfl, rfl, rfl⟩
        · simp [hst]
        · intro s hs
          simp [hs]
        · intro ha
          simp [ha]
      | scheduled =>
        refine ⟨_, _, rfl, ?_, ?_, ?_, rfl, rfl, rfl⟩
        · simp [hst]
        · intro s hs
          simp [hs]
        · intro ha
          simp [ha]
      | cancelled =>
        refine ⟨_, _, rfl, ?_, ?_, ?_, rfl, rfl, rfl⟩
        · simp [hst]
        · intro s hs
          simp [hs]
        · intro ha
          simp [ha]

/-- A counselor PATCH body: complete the appointment, attach a report, and
set assigned_to to the caller. -/
def c4Body : PatchBody :=
  { status := some "completed", scheduled_at := none, location := none,
    provider_or_notes := none, admin_notes := none, assigned_to := some (some 1),
    counselor_report := some (some "done") }

/-- Closed instantiation of C4: the assigned counselor completes their own
booking with a report and keeps the assignment. -/
theorem c4_counselor_claim_or_self_manage_witness :
    ∃ r db2,
      patchAppointment exDb2 ⟨1, "c", Role.counselor⟩ "7" c4Body "2025-03-11T00:00:00" =
        (HResp.okA (some r), db2) ∧
      r.status = AppointmentStatus.completed ∧
      r.counselor_report = some "done" ∧ r.assigned_to = some 1 := by
  obtain ⟨r, db2, heq, hstatus, hrep, hassign, -, -, -⟩ :=
    (c4_counselor_claim_or_self_manage exDb2 ⟨1, "c", Role.counselor⟩ "7" c4Body
      "2025-03-11T00:00:00" 7 exBooked rfl (by decide) (by decide)).2 (Or.inr rfl)
  exact ⟨r, db2, heq, hstatus.trans (by decide), (hrep "done" rfl).trans (by decide),
    hassign rfl⟩

/-- C7: a student may set status to cancelled only on their own
appointment and only while its current status is scheduled; cancelling a
terminal appointment is rejected with the store unchanged, and any update
attempt on another student's appointment is rejected as forbidden. -/
theorem c7_student_cancel_only_own_scheduled :
    ∀ db caller idStr body now id existing,
      caller.role = Role.student →
      parseInt10 idStr = some id →
      getAppointmentById db id = some existing →
      ((existing.student_id ≠ caller.userId →
          patchAppointment db caller idStr body now = (HResp.forbidden, db)) ∧
       (existing.student_id = caller.userId → body.status = some "cancelled" →
          ((existing.status ≠ AppointmentStatus.scheduled →
             patchAppointment db caller idStr body now = (HResp.badRequest, db)) ∧
           (existing.status = AppointmentStatus.scheduled →
             ∃ r db2,
               patchAppointment db caller idStr body now = (HResp.okA (some r), db2) ∧
               r.status = AppointmentStatus.cancelled ∧ r.id = existing.id ∧
               db2.appointments =
                 db.appointments.map (fun a => if a.id == id then r else a))))) := by
  intro db caller idStr body now id existing hrole hparse hget
  have hadmin : ¬ caller.role = Role.admin := by
    rw [hrole]
    exact fun h => Role.noConfusion h
  constructor
  · intro hne
    unfold patchAppointment
    simp only [if_neg hadmin, hparse, hget, hrole]
    simp [hne]
  · intro hown hcanc
    constructor
    · intro hterm
      unfold patchAppointment
      simp only [if_neg hadmin, hparse, hget, hrole]
      simp [hown, hcanc, hterm]
    · intro hsched
      unfold patchAppointment
      simp only [if_neg hadmin, hparse, hget, hrole]
      have hown2 : (!(existing.student_id == caller.userId)) = false := by simp [hown]
      rw [hown2]
      simp only [Bool.false_eq_true, if_false]
      have hc : (body.status == some "cancelled") = true := by simp [hcanc]
      rw [hc]
      simp only [if_true]
      have hguard : ((some AppointmentStatus.cancelled).isSome &&
          !(existing.status == AppointmentStatus.scheduled)) = false := by
        simp [hsched]
      rw [hguard]
      simp only [Bool.false_eq_true, if_false]
      rw [updateAppointment_found db id _ now existing hget]
      refine ⟨_, _, rfl, ?_, rfl, rfl⟩
      simp [ApptUpdates.empty]

/-- Closed instantiation of C7: the owning student cancels their own
scheduled booking. -/
theorem c7_student_cancel_only_own_scheduled_witness :
    ∃ r db2,
      patchAppointment exDb2 ⟨5, "s", Role.student⟩ "7"
          { status := some "cancelled", scheduled_at := none, location := none,
            provider_or_notes := none, admin_notes := none, assigned_to := none,
            counselor_report := none } "2025-03-11T00:00:00" =
        (HResp.okA (some r), db2) ∧
      r.status = AppointmentStatus.cancelled := by
  obtain ⟨r, db2, heq, hst, -, -⟩ :=
    ((c7_student_cancel_only_own_scheduled exDb2 ⟨5, "s", Role.student⟩ "7"
        { status := some "cancelled", scheduled_at := none, location := none,
          provider_or_notes := none, admin_notes := none, assigned_to := none,
          counselor_report := none } "2025-03-11T00:00:00" 7 exBooked rfl (by decide)
        (by decide)).2 rfl rfl).2 rfl
  exact ⟨r, db2, heq, hst⟩

/-- C10: a reschedule request by the owning student that supplies a
non-empty scheduled_at and does not request a cancellation succeeds and
changes scheduled_at whatever the current status is — the
status-must-be-scheduled guard applies only to the cancellation path. -/
theorem c10_student_reschedule_any_status :
    ∀ db caller idStr body now id existing s,
      caller.role = Role.student →
      parseInt10 idStr = some id →
      getAppointmentById db id = some existing →
      existing.student_id = caller.userId →
      body.scheduled_at = some s → s ≠ "" →
      body.status ≠ some "cancelled" →
      ∃ r db2,
        patchAppointment db caller idStr body now = (HResp.okA (some r), db2) ∧
        r.scheduled_at = s ∧ r.status = existing.status ∧
        db2.appointments = db.appointments.map (fun a => if a.id == id then r else a) := by
  intro db caller idStr body now id existing s hrole hparse hget hown hsch hs hnc
  have hadmin : ¬ caller.role = Role.admin := by
    rw [hrole]
    exact fun h => Role.noConfusion h
  unfold patchAppointment
  simp only [if_neg hadmin, hparse, hget, hrole]
  have hown2 : (!(existing.student_id == caller.userId)) = false := by simp [hown]
  rw [hown2]
  simp only [Bool.false_eq_true, if_false]
  have hc : (body.status == some "cancelled") = false := by simp [hnc]
  rw [hc]
  simp only [if_false, Bool.false_eq_true]
  have hguard : ((none : Option AppointmentStatus).isSome &&
      !(existing.status == AppointmentStatus.scheduled)) = false := by simp
  rw [hguard]
  simp only [Bool.false_eq_true, if_false]
  rw [updateAppointment_found db id _ now existing hget]
  refine ⟨_, _, rfl, ?_, ?_, rfl⟩
  · simp [ApptUpdates.empty, hsch, hs]
  · simp [ApptUpdates.empty]

/-- A completed booking owned by student 5, used to witness rescheduling
out of a terminal status. -/
def exBookedDone : AppointmentRow :=
  { exBooked with id := 9, status := AppointmentStatus.completed }

/-- The example store holding only the completed booking. -/
def exDb3 : DB :=
  { users := [exCounselor]
    appointments := [exBookedDone]
    availability := []
    notifications := []
    nextApptId := 10 }

/-- Closed instantiation of C10: the owning student reschedules a booking
whose status is already completed, and the reschedule is applied. -/
theorem c10_student_reschedule_any_status_witness :
    ∃ r db2,
      patchAppointment exDb3 ⟨5, "s", Role.student⟩ "9"
          { status := none, scheduled_at := some "2025-03-12T10:00:00", location := none,
            provider_or_notes := none, admin_notes := none, assigned_to := none,
            counselor_report := none } "2025-03-11T00:00:00" =
        (HResp.okA (some r), db2) ∧
      r.scheduled_at = "2025-03-12T10:00:00" ∧ r.status = AppointmentStatus.completed := by
  obtain ⟨r, db2, heq, hsch, hst, -⟩ :=
    c10_student_reschedule_any_status exDb3 ⟨5, "s", Role.student⟩ "9"
      { status := none, scheduled_at := some "2025-03-12T10:00:00", location := none,
        provider_or_notes := none, admin_notes := none, assigned_to := none,
        counselor_report := none } "2025-03-11T00:00:00" 9 exBookedDone "2025-03-12T10:00:00"
      rfl (by decide) (by decide) rfl rfl (by decide) (by decide)
  exact ⟨r, db2, heq, hsch, hst.trans (by decide)⟩

/-- C6: a caller with the admin role is rejected as forbidden by every
appointment route — create, list, update and delete — with the store
unchanged, so no admin request ever reads or mutates an appointment row. -/
theorem c6_admin_rejected_on_all_appointment_routes :
    ∀ db caller pbody statusQ idStr patchB now,
      caller.role = Role.admin →
      postAppointment db caller pbody now = (HResp.forbidden, db) ∧
      getAppointmentsRoute db caller statusQ = (HResp.forbidden, db) ∧
      patchAppointment db caller idStr patchB now = (HResp.forbidden, db) ∧
      deleteAppointmentRoute db caller idStr = (HResp.forbidden, db) := by
  intro db caller pbody statusQ idStr patchB now h
  refine ⟨?_, ?_, ?_, ?_⟩
  · unfold postAppointment
    rw [if_pos h]
  · unfold getAppointmentsRoute
    rw [if_pos h]
  · unfold patchAppointment
    rw [if_pos h]
  · unfold deleteAppointmentRoute
    rw [if_pos h]

/-- Closed instantiation of C6: an admin is rejected by all four routes on
the concrete store. -/
theorem c6_admin_rejected_on_all_appointment_routes_witness :
    postAppointment exDb2 ⟨99, "a", Role.admin⟩
        { studentId := some 5, scheduledAt := some "2025-03-10T09:00:00", type := none,
          location := none, providerOrNotes := none, adminNotes := none, assignedTo := none }
        "2025-03-09T00:00:00" = (HResp.forbidden, exDb2) ∧
      getAppointmentsRoute exDb2 ⟨99, "a", Role.admin⟩ none = (HResp.forbidden, exDb2) ∧
      patchAppointment exDb2 ⟨99, "a", Role.admin⟩ "7" c4Body "2025-03-09T00:00:00" =
        (HResp.forbidden, exDb2) ∧
      deleteAppointmentRoute exDb2 ⟨99, "a", Role.admin⟩ "7" = (HResp.forbidden, exDb2) :=
  c6_admin_rejected_on_all_appointment_routes exDb2 ⟨99, "a", Role.admin⟩
    { studentId := some 5, scheduledAt := some "2025-03-10T09:00:00", type := none,
      location := none, providerOrNotes := none, adminNotes := none, assignedTo := none }
    none "7" c4Body "2025-03-09T00:00:00" rfl

/-- C8: a successful create persists the appointment with status
scheduled; a supplied assignedTo that is not a current counselor id is
silently dropped (stored as null) while the request still succeeds, and a
counselor id is stored as given. -/
theorem c8_create_scheduled_and_invalid_assignee_dropped :
    ∀ db caller body now sid sAt,
      ((caller.role = Role.student ∧ sid = caller.userId) ∨
        (caller.role = Role.counselor ∧ body.studentId = some sid)) →
      body.scheduledAt = some sAt →
      isValidDateTime sAt = true →
      db.users.any (fun u => u.id == sid && u.role == Role.student) = true →
      ∃ row db2,
        postAppointment db caller body now = (HResp.created row, db2) ∧
        row.status = AppointmentStatus.scheduled ∧
        (∀ n, body.assignedTo = some n →
          db.users.any (fun u => u.id == n && u.role == Role.counselor) = false →
          row.assigned_to = none) ∧
        (∀ n, body.assignedTo = some n →
          db.users.any (fun u => u.id == n && u.role == Role.counselor) = true →
          row.assigned_to = some n) ∧
        row ∈ db2.appointments := by
  intro db caller body now sid sAt hrole hsA hvalid hex
  rcases hrole with ⟨hr, hsid⟩ | ⟨hr, hsid⟩
  · have hadmin : ¬ caller.role = Role.admin := by
      rw [hr]
      exact fun h => Role.noConfusion h
    subst hsid
    unfold postAppointment
    simp only [if_neg hadmin, hr, hsA, hvalid, hex, Bool.not_true, Bool.false_eq_true, if_false]
    refine ⟨_, _, rfl, rfl, ?_, ?_, ?_⟩
    · intro n hn hno
      simp [createAppointment, hn]
      simpa using hno
    · intro n hn hyes
      simp [createAppointment, hn]
      simpa using hyes
    · simp [createAppointment, createNotification]
  · have hadmin : ¬ caller.role = Role.admin := by
      rw [hr]
      exact fun h => Role.noConfusion h
    unfold postAppointment
    simp only [if_neg hadmin, hr, hsid, hsA, hvalid, hex, Bool.not_true, Bool.false_eq_true,
      if_false]
    refine ⟨_, _, rfl, rfl, ?_, ?_, ?_⟩
    · intro n hn hno
      simp [createAppointment, hn]
      simpa using hno
    · intro n hn hyes
      simp [createAppointment, hn]
      simpa using hyes
    · simp [createAppointment, createNotification]

/-- A registered student used by the create scenario. -/
def exStudent : User :=
  { id := 5, username := "s", role := Role.student, provider_type := ProviderType.counselor }

/-- A store with one counselor and one student and no appointments. -/
def exDb4 : DB :=
  { users := [exCounselor, exStudent]
    appointments := []
    availability := []
    notifications := []
    nextApptId := 1 }

/-- Closed instantiation of C8: a student booking with assignedTo = 999
(not a counselor) succeeds, is stored with status scheduled and with
assigned_to null. -/
theorem c8_create_scheduled_and_invalid_assignee_dropped_witness :
    ∃ row db2,
      postAppointment exDb4 ⟨5, "s", Role.student⟩
          { studentId := none, scheduledAt := some "2025-03-10T09:00:00", type := none,
            location := none, providerOrNotes := none, adminNotes := none,
            assignedTo := some 999 } "2025-03-09T00:00:00" = (HResp.created row, db2) ∧
      row.status = AppointmentStatus.scheduled ∧ row.assigned_to = none := by
  obtain ⟨row, db2, heq, hst, hdrop, -, -⟩ :=
    c8_create_scheduled_and_invalid_assignee_dropped exDb4 ⟨5, "s", Role.student⟩
      { studentId := none, scheduledAt := some "2025-03-10T09:00:00", type := none,
        location := none, providerOrNotes := none, adminNotes := none,
        assignedTo := some 999 } "2025-03-09T00:00:00" 5 "2025-03-10T09:00:00"
      (Or.inl ⟨rfl, rfl⟩) rfl (by decide) (by decide)
  exact ⟨row, db2, heq, hst, hdrop 999 rfl (by decide)⟩

/-- C5 evaluation at the failing input: a student who does not even own
appointment 7 sends DELETE /api/appointments/7 and the code answers 204,
hard-deleting the row — the route applies no ownership check to the
student role, contradicting the counselor-only delete rule. -/
theorem c5_delete_by_student_succeeds_code_evaluation :
    deleteAppointmentRoute exDb2 ⟨6, "other", Role.student⟩ "7" =
      (HResp.noContent, { exDb2 with appointments := [] }) := by
  decide
